import Mathlib

/-!
Verification of `retail_promotions_to_shopify_metafields.py` (Shopify_Add_Banner).

Shallow embedding conventions:
* A Python `date` is embedded as `Int` (days since an arbitrary epoch);
  `timedelta(days = n)` becomes addition/subtraction of `n`, and `min`/`max`
  on dates become `min`/`max` on `Int`.
* `Optional[T]` becomes `Option T`.  Python truthiness of a `date` value is
  `Option.isSome` (date objects are always truthy), so `a or b` on optional
  dates is `Option.getD`.
* Strings stay `String`; `str.lower`/`str.split()` are modelled on ASCII
  whitespace (space, tab, CR, LF), which is what the data contains.
* Network calls are embedded by passing the outcome of each HTTP attempt as
  an explicit argument (an oracle from attempt number to outcome, or a single
  outcome value), and the functions return the value the Python code would
  return, or `Except` when the Python code raises.
-/

namespace ShopifyAddBanner

/-! ### `normalize` (retail_promotions_to_shopify_metafields.py, lines 89-90)

Python: `" ".join((s or "").strip().lower().split())`.
`str.split()` with no separator splits on runs of whitespace and drops empty
pieces, so the leading `strip()` is redundant; we embed lower-casing each
character followed by splitting on whitespace and re-joining with single
spaces. -/

/-- ASCII whitespace, the characters Python's `str.split()` splits on in this
data set. -/
def isWs (c : Char) : Bool :=
  c = ' ' || c = '\t' || c = '\n' || c = '\r'

/-- Split a character list into maximal whitespace-free words
(`str.split()` with no argument). `acc` holds the current word, reversed. -/
def wordsAux : List Char → List Char → List (List Char)
  | [], acc => if acc.isEmpty then [] else [acc.reverse]
  | c :: cs, acc =>
    if isWs c then
      if acc.isEmpty then wordsAux cs [] else acc.reverse :: wordsAux cs []
    else
      wordsAux cs (c :: acc)

/-- `" ".join(words)` at the character level. -/
def joinSpace : List (List Char) → List Char
  | [] => []
  | [w] => w
  | w :: ws => w ++ ' ' :: joinSpace ws

/-- `normalize(s)`: lower-case, then collapse/trim whitespace to single
spaces. -/
def normalize (s : String) : String :=
  String.mk (joinSpace (wordsAux (s.data.map Char.toLower) []))

/-! ### Data model (lines 117-147) -/

/-- `RetailPromoRow` (lines 117-124).  The reader guarantees `vendor` and
`entry_type` are stripped and non-empty and `collection_id` is `none` or a
non-empty stripped string, but `aggregate_by_vendor` does not rely on that,
and neither do we. -/
structure RetailPromoRow where
  id : Int
  vendor : String
  collection_id : Option String
  entry_type : String
  start_date : Int
  end_date : Option Int
  deriving Repr, DecidableEq

/-- `VendorPlan` (lines 127-146): per-vendor aggregate of display windows
(not written to Shopify) and real dates (written to Shopify). -/
structure VendorPlan where
  vendor : String
  collection_ids : List String := []
  sale_display_start : Option Int := none
  sale_display_end : Option Int := none
  pi_display_start : Option Int := none
  pi_display_end : Option Int := none
  sale_real_start : Option Int := none
  sale_real_end : Option Int := none
  pi_real_start : Option Int := none
  pi_real_end : Option Int := none
  deriving Repr, DecidableEq

/-! ### Window calculator (lines 263-275) -/

/-- `compute_display_window(row, x, y, z)` (lines 263-275). -/
def compute_display_window (row : RetailPromoRow) (x y z : Int) : Int × Int :=
  let t := normalize row.entry_type
  if t = "sale" then
    (row.start_date - x, row.end_date.getD row.start_date)
  else if t = "price increase" then
    let end_display :=
      match row.end_date with
      | some e => e
      | none => row.start_date + z
    (row.start_date - y, end_display)
  else
    (row.start_date, row.start_date)

/-! ### Vendor aggregation (lines 278-313) -/

/-- The idiom `d if field is None else min(field, d)` used at lines 293-304. -/
def omin (o : Option Int) (d : Int) : Option Int :=
  match o with
  | none => some d
  | some a => some (min a d)

/-- The idiom `d if field is None else max(field, d)` used at lines 294-309. -/
def omax (o : Option Int) (d : Int) : Option Int :=
  match o with
  | none => some d
  | some a => some (max a d)

/-- The body of the `for r in rows` loop of `aggregate_by_vendor`
(lines 285-309), acting on the plan `w` fetched for `r.vendor`. -/
def aggStep (x y z : Int) (w : VendorPlan) (r : RetailPromoRow) : VendorPlan :=
  -- `if r.collection_id and r.collection_id not in w.collection_ids` (line 285)
  let ids :=
    match r.collection_id with
    | some cid =>
      if cid ≠ "" ∧ cid ∉ w.collection_ids then w.collection_ids ++ [cid]
      else w.collection_ids
    | none => w.collection_ids
  let t := normalize r.entry_type
  let dw := compute_display_window r x y z
  if t = "sale" then
    { w with
      collection_ids := ids
      sale_display_start := omin w.sale_display_start dw.1
      sale_display_end := omax w.sale_display_end dw.2
      sale_real_start := omin w.sale_real_start r.start_date
      -- `real_end = r.end_date or r.start_date` (line 297)
      sale_real_end := omax w.sale_real_end (r.end_date.getD r.start_date) }
  else if t = "price increase" then
    { w with
      collection_ids := ids
      pi_display_start := omin w.pi_display_start dw.1
      pi_display_end := omax w.pi_display_end dw.2
      pi_real_start := omin w.pi_real_start r.start_date
      -- lines 306-309: pi_real_end is only touched when the row has an end
      pi_real_end :=
        match r.end_date with
        | some e => omax w.pi_real_end e
        | none => w.pi_real_end }
  else
    { w with collection_ids := ids }

/-- `by_vendor[v] = w` on a Python dict embedded as an insertion-ordered
association list: updating an existing key keeps its position, a new key is
appended. -/
def setKey (k : String) (w : VendorPlan) :
    List (String × VendorPlan) → List (String × VendorPlan)
  | [] => [(k, w)]
  | (k', w') :: t => if k' = k then (k, w) :: t else (k', w') :: setKey k w t

/-- One iteration of the `aggregate_by_vendor` loop on the dict state
(lines 281-311): fetch the plan for `r.vendor` (or a fresh one), apply the
loop body, store it back. -/
def aggDictStep (x y z : Int) (m : List (String × VendorPlan))
    (r : RetailPromoRow) : List (String × VendorPlan) :=
  let w := (List.lookup r.vendor m).getD { vendor := r.vendor }
  setKey r.vendor (aggStep x y z w r) m

/-- `aggregate_by_vendor(rows, x, y, z)` (lines 278-313): fold the rows into
the vendor dict and return `list(by_vendor.values())`. -/
def aggregate_by_vendor (rows : List RetailPromoRow) (x y z : Int) :
    List VendorPlan :=
  (rows.foldl (aggDictStep x y z) []).map Prod.snd

/-! ### GraphQL client retry loop (`ShopifyClient.graphql`, lines 330-358)

One HTTP attempt is embedded as an explicit outcome; the loop consumes an
oracle from attempt number to outcome.  Inside the Python `try` block the
attempt can end in: a raised transport error, a response whose status is in
the transient set (handled by `continue`), a response on which
`raise_for_status` raises (status ≥ 400), a response whose body fails to
parse as JSON, a parsed body whose `errors` field is truthy (the code then
raises `RuntimeError`, which the enclosing `except` catches), or a clean
parsed body, which is returned. -/

/-- The parsed JSON body of a GraphQL response: whether `data.get("errors")`
is truthy, plus an abstract identity for the rest of the payload. -/
structure GqlData where
  hasErrors : Bool
  payload : Nat
  deriving Repr, DecidableEq

/-- Outcome of one `requests.post` attempt: the call raised, or it produced
a response with a status code and a body (`none` = body not parseable as
JSON). -/
inductive GqlAttempt where
  | netErr : GqlAttempt
  | resp (status : Nat) (body : Option GqlData) : GqlAttempt
  deriving Repr, DecidableEq

/-- The error recorded in `last_err` for a failed attempt. -/
inductive GqlErr where
  | transport : GqlErr
  | transient (status : Nat) : GqlErr
  | httpStatus (status : Nat) : GqlErr
  | parseFailure : GqlErr
  | graphqlErrors : GqlErr
  deriving Repr, DecidableEq

/-- `resp.status_code in (429, 500, 502, 503, 504)` (line 342). -/
def transientStatus (st : Nat) : Bool :=
  st = 429 || st = 500 || st = 502 || st = 503 || st = 504

/-- The body of one iteration of the retry loop (lines 339-356): either a
clean payload is returned, or the iteration ends with an error recorded in
`last_err` (via `continue` for the transient statuses, via the
`except Exception` handler for everything else, including the GraphQL-level
`errors` payload raised at line 351). -/
def classifyAttempt : GqlAttempt → Except GqlErr GqlData
  | .netErr => .error .transport
  | .resp st body =>
    if transientStatus st then .error (.transient st)
    else if 400 ≤ st then .error (.httpStatus st)  -- resp.raise_for_status()
    else
      match body with
      | none => .error .parseFailure               -- resp.json() raised
      | some d =>
        if d.hasErrors then .error .graphqlErrors  -- line 350-351
        else .ok d

/-- The `for attempt in range(retries)` loop (lines 338-358): `i` is the
next attempt index, the fuel is the number of attempts left, `last` is
`last_err`.  When the fuel runs out the loop falls through to line 358 and
raises, wrapping `last_err`. -/
def graphqlLoop (oracle : Nat → GqlAttempt) :
    Nat → Nat → Option GqlErr → Except (Option GqlErr) GqlData
  | _, 0, last => .error last
  | i, fuel + 1, _ =>
    match classifyAttempt (oracle i) with
    | .ok d => .ok d
    | .error e => graphqlLoop oracle (i + 1) fuel (some e)

/-- `ShopifyClient.graphql(query, variables, retries)` (line 330), abstracted
over the per-attempt outcomes. -/
def graphql (oracle : Nat → GqlAttempt) (retries : Nat := 4) :
    Except (Option GqlErr) GqlData :=
  graphqlLoop oracle 0 retries none

/-! ### REST count primitives (lines 410-439) -/

/-- What `data.get("count", 0)` followed by `int(...)` sees in a parsed
body: the key is missing (default `0` is used), it holds an integral value,
or it holds a value `int()` raises on. -/
inductive CountField where
  | missing : CountField
  | intVal (n : Int) : CountField
  | badVal : CountField
  deriving Repr, DecidableEq

/-- Outcome of the single `requests.get` of a count endpoint. -/
inductive RestOutcome where
  | netErr : RestOutcome
  | resp (status : Nat) (body : Option CountField) : RestOutcome
  deriving Repr, DecidableEq

/-- Shared body of the two count functions: the whole `try` block returns
`int(data.get("count", 0))`, and any exception (network error,
`raise_for_status` on status ≥ 400, JSON parse failure, `int()` failure) is
swallowed into `return 0`. -/
def restCountOutcome : RestOutcome → Int
  | .netErr => 0
  | .resp st body =>
    if 400 ≤ st then 0                 -- resp.raise_for_status() raised
    else
      match body with
      | none => 0                      -- resp.json() raised
      | some .missing => 0             -- data.get("count", 0)
      | some (.intVal n) => n
      | some .badVal => 0              -- int(...) raised

/-- `ShopifyClient.rest_count_products_in_collection` (lines 410-428); the
collection id only shapes the URL. -/
def rest_count_products_in_collection (_collection_id : String)
    (o : RestOutcome) : Int :=
  restCountOutcome o

/-- `ShopifyClient.rest_count_products_by_vendor` (lines 430-439). -/
def rest_count_products_by_vendor (_vendor : String) (o : RestOutcome) : Int :=
  restCountOutcome o

/-- An attempt outcome on which the Python `try` block of the count
functions raises: network error, HTTP error status (≥ 400, where
`raise_for_status` raises), unparseable body, or a `count` value `int()`
rejects. -/
def isRestFailure : RestOutcome → Bool
  | .netErr => true
  | .resp st body =>
    decide (400 ≤ st) || body.isNone || body = some .badVal

/-! ### Reconciler (`main`, lines 588-722) -/

/-- `sale_should_exist` (lines 601-604): both display bounds present and
`start ≤ today ≤ end`. -/
def sale_should_exist (w : VendorPlan) (today : Int) : Bool :=
  match w.sale_display_start, w.sale_display_end with
  | some s, some e => decide (s ≤ today) && decide (today ≤ e)
  | _, _ => false

/-- `pi_should_exist` (lines 605-608). -/
def pi_should_exist (w : VendorPlan) (today : Int) : Bool :=
  match w.pi_display_start, w.pi_display_end with
  | some s, some e => decide (s ≤ today) && decide (today ≤ e)
  | _, _ => false

/-- Product-id collection with the `seen` set (lines 669-675): extend `acc`
with the members of `l` not yet present, keeping first-seen order. -/
def dedupAppend (acc l : List String) : List String :=
  l.foldl (fun a pid => if pid ∈ a then a else a ++ [pid]) acc

/-- A product node returned by the paginated `products(query:
"vendor:...")` query: its id and its vendor field. -/
structure ShopProduct where
  pid : String
  pvendor : String
  deriving Repr, DecidableEq

/-- `ShopifyClient.list_product_ids_by_vendor` (lines 441-468), abstracted
over the fetched pages (concatenated into one node list): keep the ids of
the nodes whose normalized vendor equals the normalized target. -/
def list_product_ids_by_vendor (vendor : String)
    (fetched : List ShopProduct) : List String :=
  (fetched.filter (fun n => normalize n.pvendor == normalize vendor)).map
    (fun n => n.pid)

/-- Product-scope resolution of `main` (lines 610-630 and 666-677):
collections take priority, the vendor query is only the fallback.
`collections cid` stands for `list_product_ids_in_collection(cid)` and
`fetchedByVendor` for the nodes the vendor query returns. -/
def resolve_product_ids (collections : String → List String)
    (fetchedByVendor : List ShopProduct) (w : VendorPlan) : List String :=
  if w.collection_ids = [] then
    list_product_ids_by_vendor w.vendor fetchedByVendor
  else
    w.collection_ids.foldl (fun acc cid => dedupAppend acc (collections cid)) []

/-! ### Dry-run estimation (`main`, lines 613-661) -/

/-- `cache_key` (line 614):
`f"{vendor}::{'collection_id' if has_collection_id else 'vendor'}::{','.join(ids)}"`. -/
def cache_key (w : VendorPlan) : String :=
  w.vendor ++ "::" ++
    (if w.collection_ids = [] then "vendor" else "collection_id") ++ "::" ++
    String.intercalate "," w.collection_ids

/-- The count fetched on a cache miss in dry-run mode (lines 619-630):
sum of per-collection REST counts, or the per-vendor REST count.
`collCount`/`vendCount` stand for the two count primitives. -/
def dry_fetch_count (collCount vendCount : String → Int) (w : VendorPlan) :
    Int :=
  if w.collection_ids = [] then vendCount w.vendor
  else (w.collection_ids.map collCount).sum

/-- `payload_will_exist` (line 642): Python truthiness of an optional date
is `Option.isSome`. -/
def payload_will_exist (w : VendorPlan) (today : Int) : Bool :=
  (sale_should_exist w today && w.sale_real_start.isSome &&
    w.sale_real_end.isSome) ||
  (pi_should_exist w today && w.pi_real_start.isSome)

/-- `keys_will_delete` (line 647). -/
def keys_will_delete (w : VendorPlan) (today : Int) : Bool :=
  !sale_should_exist w today || !pi_should_exist w today

/-- One entry of `vendor_results` (lines 652-659). -/
structure DryRunVendorResult where
  vendor : String
  used_collection_id : Bool
  collection_ids : List String
  products_found : Int
  will_write : Int
  will_delete : Int
  deriving Repr, DecidableEq

/-- The dry-run summary computed for one vendor plan once `product_count`
is known (lines 637-659). -/
def dry_run_vendor_result (w : VendorPlan) (today : Int)
    (product_count : Int) : DryRunVendorResult :=
  { vendor := w.vendor
    used_collection_id := w.collection_ids ≠ []
    collection_ids := w.collection_ids
    products_found := product_count
    will_write := if payload_will_exist w today then product_count else 0
    will_delete := if keys_will_delete w today then product_count else 0 }

/-- The dry-run pass of the `for w in vendor_plans` loop (lines 588-661):
`product_cache` maps cache keys to counts; the second component of the
result records, in order, the keys whose count was actually fetched from
the API (cache misses). -/
def dry_run_loop (collCount vendCount : String → Int) (today : Int) :
    List (String × Int) → List VendorPlan →
      List DryRunVendorResult × List String
  | _, [] => ([], [])
  | cache, w :: rest =>
    let key := cache_key w
    match List.lookup key cache with
    | some c =>
      let p := dry_run_loop collCount vendCount today cache rest
      (dry_run_vendor_result w today c :: p.1, p.2)
    | none =>
      let c := dry_fetch_count collCount vendCount w
      let p := dry_run_loop collCount vendCount today ((key, c) :: cache) rest
      (dry_run_vendor_result w today c :: p.1, key :: p.2)

/-- The whole dry-run pass, starting from the empty cache (line 583). -/
def dry_run (collCount vendCount : String → Int) (today : Int)
    (plans : List VendorPlan) : List DryRunVendorResult × List String :=
  dry_run_loop collCount vendCount today [] plans

/-! ## Helper lemmas -/

theorem aggStep_vendor (x y z : Int) (w : VendorPlan) (r : RetailPromoRow) :
    (aggStep x y z w r).vendor = w.vendor := by
  simp only [aggStep]
  split_ifs <;> rfl

theorem aggStep_collection_ids (x y z : Int) (w : VendorPlan)
    (r : RetailPromoRow) :
    (aggStep x y z w r).collection_ids =
      (match r.collection_id with
       | some cid =>
         if cid ≠ "" ∧ cid ∉ w.collection_ids then w.collection_ids ++ [cid]
         else w.collection_ids
       | none => w.collection_ids) := by
  simp only [aggStep]
  split_ifs <;> rfl

theorem mem_aggStep_collection_ids (x y z : Int) (w : VendorPlan)
    (r : RetailPromoRow) (c : String) :
    c ∈ (aggStep x y z w r).collection_ids ↔
      c ∈ w.collection_ids ∨ (r.collection_id = some c ∧ c ≠ "") := by
  rw [aggStep_collection_ids]
  cases h : r.collection_id with
  | none => simp
  | some cid =>
    simp only [Option.some.injEq]
    by_cases hne : cid = ""
    · rw [if_neg (by simp [hne])]
      constructor
      · exact fun hc => Or.inl hc
      · rintro (hc | ⟨rfl, hc2⟩)
        · exact hc
        · exact absurd hne hc2
    · by_cases hmem : cid ∈ w.collection_ids
      · rw [if_neg (by tauto)]
        constructor
        · exact fun hc => Or.inl hc
        · rintro (hc | ⟨rfl, _⟩)
          · exact hc
          · exact hmem
      · rw [if_pos ⟨hne, hmem⟩, List.mem_append, List.mem_singleton]
        constructor
        · rintro (hc | rfl)
          · exact Or.inl hc
          · exact Or.inr ⟨rfl, hne⟩
        · rintro (hc | ⟨rfl, _⟩)
          · exact Or.inl hc
          · exact Or.inr rfl

theorem aggStep_sale_display_start (x y z : Int) (w : VendorPlan)
    (r : RetailPromoRow) :
    (aggStep x y z w r).sale_display_start =
      (if normalize r.entry_type = "sale" then
        omin w.sale_display_start (compute_display_window r x y z).1
       else w.sale_display_start) := by
  by_cases h1 : normalize r.entry_type = "sale" <;>
    by_cases h2 : normalize r.entry_type = "price increase" <;>
      simp_all [aggStep]

theorem aggStep_sale_display_end (x y z : Int) (w : VendorPlan)
    (r : RetailPromoRow) :
    (aggStep x y z w r).sale_display_end =
      (if normalize r.entry_type = "sale" then
        omax w.sale_display_end (compute_display_window r x y z).2
       else w.sale_display_end) := by
  by_cases h1 : normalize r.entry_type = "sale" <;>
    by_cases h2 : normalize r.entry_type = "price increase" <;>
      simp_all [aggStep]

theorem aggStep_sale_real_start (x y z : Int) (w : VendorPlan)
    (r : RetailPromoRow) :
    (aggStep x y z w r).sale_real_start =
      (if normalize r.entry_type = "sale" then
        omin w.sale_real_start r.start_date
       else w.sale_real_start) := by
  by_cases h1 : normalize r.entry_type = "sale" <;>
    by_cases h2 : normalize r.entry_type = "price increase" <;>
      simp_all [aggStep]

theorem aggStep_sale_real_end (x y z : Int) (w : VendorPlan)
    (r : RetailPromoRow) :
    (aggStep x y z w r).sale_real_end =
      (if normalize r.entry_type = "sale" then
        omax w.sale_real_end (r.end_date.getD r.start_date)
       else w.sale_real_end) := by
  by_cases h1 : normalize r.entry_type = "sale" <;>
    by_cases h2 : normalize r.entry_type = "price increase" <;>
      simp_all [aggStep]

theorem aggStep_pi_display_start (x y z : Int) (w : VendorPlan)
    (r : RetailPromoRow) :
    (aggStep x y z w r).pi_display_start =
      (if normalize r.entry_type = "price increase" then
        omin w.pi_display_start (compute_display_window r x y z).1
       else w.pi_display_start) := by
  by_cases h1 : normalize r.entry_type = "sale" <;>
    by_cases h2 : normalize r.entry_type = "price increase" <;>
      simp_all [aggStep]

theorem aggStep_pi_display_end (x y z : Int) (w : VendorPlan)
    (r : RetailPromoRow) :
    (aggStep x y z w r).pi_display_end =
      (if normalize r.entry_type = "price increase" then
        omax w.pi_display_end (compute_display_window r x y z).2
       else w.pi_display_end) := by
  by_cases h1 : normalize r.entry_type = "sale" <;>
    by_cases h2 : normalize r.entry_type = "price increase" <;>
      simp_all [aggStep]

theorem aggStep_pi_real_start (x y z : Int) (w : VendorPlan)
    (r : RetailPromoRow) :
    (aggStep x y z w r).pi_real_start =
      (if normalize r.entry_type = "price increase" then
        omin w.pi_real_start r.start_date
       else w.pi_real_start) := by
  by_cases h1 : normalize r.entry_type = "sale" <;>
    by_cases h2 : normalize r.entry_type = "price increase" <;>
      simp_all [aggStep]

theorem aggStep_pi_real_end (x y z : Int) (w : VendorPlan)
    (r : RetailPromoRow) :
    (aggStep x y z w r).pi_real_end =
      (if normalize r.entry_type = "price increase" then
        (match r.end_date with
         | some e => omax w.pi_real_end e
         | none => w.pi_real_end)
       else w.pi_real_end) := by
  by_cases h1 : normalize r.entry_type = "sale" <;>
    by_cases h2 : normalize r.entry_type = "price increase" <;>
      simp_all [aggStep]

theorem omin_right_comm (o : Option Int) (a b : Int) :
    omin (omin o a) b = omin (omin o b) a := by
  cases o <;> simp [omin, min_assoc, min_comm a b]

theorem omax_right_comm (o : Option Int) (a b : Int) :
    omax (omax o a) b = omax (omax o b) a := by
  cases o <;> simp [omax, max_assoc, max_comm a b]

/-! ## Claims -/

/-- C4: for every promotion row whose entry type normalizes to `"sale"`,
given offset `x`: the computed display window is
`(start − x, end if present else start)`, and the real end folded into the
vendor plan (used for writes) is the max-merge of `end if present else
start`. -/
theorem sale_display_window_and_real_end (r : RetailPromoRow) (x y z : Int)
    (w : VendorPlan) (h : normalize r.entry_type = "sale") :
    compute_display_window r x y z =
      (r.start_date - x, r.end_date.getD r.start_date) ∧
    (aggStep x y z w r).sale_real_end =
      omax w.sale_real_end (r.end_date.getD r.start_date) := by
  constructor
  · simp [compute_display_window, h]
  · rw [aggStep_sale_real_end, if_pos h]

/-- Witness for C4 at the concrete Sale row
`start = 100, end = 110, x = 5` (Scenario A shape). -/
theorem sale_display_window_and_real_end_witness :
    compute_display_window
      { id := 1, vendor := "V", collection_id := none, entry_type := "Sale",
        start_date := 100, end_date := some 110 } 5 15 5 = (95, 110) ∧
    (aggStep 5 15 5 { vendor := "V" }
      { id := 1, vendor := "V", collection_id := none, entry_type := "Sale",
        start_date := 100, end_date := some 110 }).sale_real_end =
      some 110 := by
  have h := sale_display_window_and_real_end
    { id := 1, vendor := "V", collection_id := none, entry_type := "Sale",
      start_date := 100, end_date := some 110 } 5 15 5 { vendor := "V" }
    (by decide)
  exact ⟨h.1.trans (by decide), h.2.trans (by decide)⟩

/-- C7 counterexample: a response with the non-2xx status 300 and a
parseable body is NOT treated as a failure — `raise_for_status` only raises
for statuses ≥ 400 — so the claim's "non-2xx status ⇒ returns zero" fails:
here both count primitives return 7. -/
theorem rest_count_non2xx_counterexample :
    rest_count_products_in_collection "123"
      (RestOutcome.resp 300 (some (CountField.intVal 7))) = 7 ∧
    rest_count_products_by_vendor "Acme"
      (RestOutcome.resp 300 (some (CountField.intVal 7))) = 7 :=
  ⟨rfl, rfl⟩

/-- C7 (amended): the count primitives never propagate an error — a network
error, an HTTP status ≥ 400 (where `raise_for_status` raises), an
unparseable body, or a `count` value `int()` rejects all yield zero instead
of raising, so callers cannot distinguish an empty scope from a failed
call. -/
theorem rest_counts_swallow_failures (cid vendor : String) (o : RestOutcome)
    (h : isRestFailure o = true) :
    rest_count_products_in_collection cid o = 0 ∧
    rest_count_products_by_vendor vendor o = 0 := by
  have h0 : restCountOutcome o = 0 := by
    cases o with
    | netErr => rfl
    | resp st body =>
      simp only [isRestFailure, Bool.or_eq_true, decide_eq_true_eq,
        Option.isNone_iff_eq_none] at h
      by_cases hst : 400 ≤ st
      · simp [restCountOutcome, hst]
      · rcases h with (h | h) | h
        · exact absurd h hst
        · subst h; simp [restCountOutcome, hst]
        · subst h; simp [restCountOutcome, hst]
  exact ⟨h0, h0⟩

/-- Witness for C7 (amended) at a concrete network failure. -/
theorem rest_counts_swallow_failures_witness :
    rest_count_products_in_collection "123" RestOutcome.netErr = 0 ∧
    rest_count_products_by_vendor "Acme" RestOutcome.netErr = 0 :=
  rest_counts_swallow_failures "123" "Acme" RestOutcome.netErr (by decide)

/-- C1 counterexample: attempt 0 receives a successfully parsed HTTP 200
response whose body carries a GraphQL-level error payload.  The claim says
the call must raise immediately with no further retry attempt; instead the
`RuntimeError` raised at line 351 is caught by the loop's own
`except Exception` handler (line 354), the call retries, and it returns the
payload of attempt 1. -/
theorem graphql_error_payload_is_retried_counterexample :
    graphql
      (fun i =>
        if i = 0 then GqlAttempt.resp 200 (some ⟨true, 1⟩)
        else GqlAttempt.resp 200 (some ⟨false, 2⟩)) 4 =
      Except.ok ⟨false, 2⟩ :=
  rfl

/-- C1 (amended): every failed attempt — transport failure, transient HTTP
status, other HTTP error status, unparseable body, and also a parsed
response carrying a GraphQL-level error payload (whose `RuntimeError` is
caught by the loop's own exception handler) — is retried alike, up to the
fixed attempt count, after which the last recorded error is surfaced. -/
theorem graphql_retry_policy (oracle : Nat → GqlAttempt) (i fuel : Nat)
    (last : Option GqlErr) (e : GqlErr) (st : Nat) (d : GqlData)
    (h : classifyAttempt (oracle i) = Except.error e)
    (hst : transientStatus st = false) (hlt : st < 400)
    (hd : d.hasErrors = true) :
    graphqlLoop oracle i (fuel + 1) last =
      graphqlLoop oracle (i + 1) fuel (some e) ∧
    classifyAttempt (GqlAttempt.resp st (some d)) =
      Except.error GqlErr.graphqlErrors ∧
    graphqlLoop oracle i 0 last = Except.error last := by
  refine ⟨?_, ?_, rfl⟩
  · simp only [graphqlLoop, h]
  · simp [classifyAttempt, hst, hd, Nat.not_le.mpr hlt]

/-- Witness for C1 (amended): a transport failure on attempt 0 passes the
baton to attempt 1; an HTTP 200 body with `errors` classifies as a caught
GraphQL error; zero remaining attempts surface `last_err`. -/
theorem graphql_retry_policy_witness :
    graphqlLoop (fun _ => GqlAttempt.netErr) 0 1 none =
      graphqlLoop (fun _ => GqlAttempt.netErr) 1 0 (some GqlErr.transport) ∧
    classifyAttempt (GqlAttempt.resp 200 (some ⟨true, 5⟩)) =
      Except.error GqlErr.graphqlErrors ∧
    graphqlLoop (fun _ => GqlAttempt.netErr) 0 0 none = Except.error none :=
  graphql_retry_policy (fun _ => GqlAttempt.netErr) 0 0 none GqlErr.transport
    200 ⟨true, 5⟩ rfl (by decide) (by decide) rfl

/-! ## Dict (association-list) helper lemmas -/

theorem mem_of_lookup_eq_some {k : String} {w : VendorPlan} :
    ∀ {m : List (String × VendorPlan)},
      List.lookup k m = some w → (k, w) ∈ m := by
  intro m
  induction m with
  | nil => intro h; simp [List.lookup] at h
  | cons p t ih =>
    intro h
    cases p with
    | mk k' w' =>
      rw [List.lookup] at h
      cases hbeq : k == k' with
      | true =>
        rw [hbeq] at h
        cases h
        rw [eq_of_beq hbeq]
        exact List.mem_cons_self _ _
      | false =>
        rw [hbeq] at h
        exact List.mem_cons_of_mem _ (ih h)

theorem mem_setKey {k : String} {w : VendorPlan} :
    ∀ {m : List (String × VendorPlan)} {q : String × VendorPlan},
      q ∈ setKey k w m → q = (k, w) ∨ q ∈ m := by
  intro m
  induction m with
  | nil =>
    intro q hq
    rw [setKey] at hq
    exact Or.inl (List.mem_singleton.mp hq)
  | cons p t ih =>
    intro q hq
    cases p with
    | mk k' w' =>
      rw [setKey] at hq
      by_cases h : k' = k
      · rw [if_pos h] at hq
        rcases List.mem_cons.mp hq with hq | hq
        · exact Or.inl hq
        · exact Or.inr (List.mem_cons_of_mem _ hq)
      · rw [if_neg h] at hq
        rcases List.mem_cons.mp hq with hq | hq
        · exact Or.inr (hq ▸ List.mem_cons_self _ _)
        · rcases ih hq with hq | hq
          · exact Or.inl hq
          · exact Or.inr (List.mem_cons_of_mem _ hq)

/-- Invariant preservation through the `aggregate_by_vendor` fold: a plan
property that holds of fresh plans, holds of every plan in the dict, and is
preserved by the loop body, holds of every plan in the final dict. -/
theorem aggFold_inv (P : VendorPlan → Prop) (x y z : Int) :
    ∀ (rows : List RetailPromoRow) (m : List (String × VendorPlan)),
      (∀ w r, r ∈ rows → P w → P (aggStep x y z w r)) →
      (∀ v, P { vendor := v }) →
      (∀ p ∈ m, P p.2) →
      ∀ p ∈ rows.foldl (aggDictStep x y z) m, P p.2 := by
  intro rows
  induction rows with
  | nil => intro m _ _ hm p hp; exact hm p hp
  | cons r t ih =>
    intro m hstep hbase hm p hp
    rw [List.foldl_cons] at hp
    refine ih (aggDictStep x y z m r)
      (fun w r' hr' => hstep w r' (List.mem_cons_of_mem _ hr')) hbase ?_ p hp
    intro q hq
    have hw0 : P ((List.lookup r.vendor m).getD { vendor := r.vendor }) := by
      cases hl : List.lookup r.vendor m with
      | none => simpa using hbase r.vendor
      | some w' => simpa using hm (r.vendor, w') (mem_of_lookup_eq_some hl)
    rcases mem_setKey hq with hq | hq
    · rw [hq]
      exact hstep _ r (List.mem_cons_self _ _) hw0
    · exact hm q hq

/-- Specialization of `aggFold_inv` to the plans `aggregate_by_vendor`
returns. -/
theorem aggregate_inv (P : VendorPlan → Prop) (x y z : Int)
    (rows : List RetailPromoRow)
    (hstep : ∀ w r, r ∈ rows → P w → P (aggStep x y z w r))
    (hbase : ∀ v, P { vendor := v }) :
    ∀ p ∈ aggregate_by_vendor rows x y z, P p := by
  intro p hp
  unfold aggregate_by_vendor at hp
  rcases List.mem_map.mp hp with ⟨q, hq, rfl⟩
  exact aggFold_inv P x y z rows [] hstep hbase (by simp) q hq

theorem sale_should_exist_of_none (w : VendorPlan) (today : Int)
    (h : w.sale_display_start = none) :
    sale_should_exist w today = false := by
  unfold sale_should_exist
  rw [h]

theorem pi_should_exist_of_none (w : VendorPlan) (today : Int)
    (h : w.pi_display_start = none) :
    pi_should_exist w today = false := by
  unfold pi_should_exist
  rw [h]

/-- C2 counterexample: two rows whose vendor names differ only in letter
case (equal after `normalize`) are NOT folded into one plan —
`aggregate_by_vendor` keys the dict by the raw vendor string (line 282),
so the result holds two separate `VendorPlan`s. -/
theorem vendor_key_case_sensitive_counterexample :
    normalize "Acme" = normalize "acme" ∧
    (aggregate_by_vendor
      [{ id := 1, vendor := "Acme", collection_id := none,
         entry_type := "Sale", start_date := 100, end_date := some 110 },
       { id := 2, vendor := "acme", collection_id := none,
         entry_type := "Sale", start_date := 100, end_date := some 110 }]
      5 15 5).length = 2 :=
  ⟨by decide, by decide⟩

/-- C2 (amended): vendor aggregation keys plans by the exact vendor string
(already stripped of surrounding whitespace by the reader, but with case
and interior whitespace intact): two rows are folded into the same single
`VendorPlan` iff their vendor fields are equal as strings, and the plan
keeps the original string. -/
theorem aggregate_keys_by_exact_vendor (r1 r2 : RetailPromoRow)
    (x y z : Int) :
    (aggregate_by_vendor [r1, r2] x y z).map VendorPlan.vendor =
      (if r1.vendor = r2.vendor then [r1.vendor] else [r1.vendor, r2.vendor]) := by
  by_cases h : r1.vendor = r2.vendor
  · simp [aggregate_by_vendor, aggDictStep, setKey, List.lookup, h,
      aggStep_vendor]
  · have hbeq : (r2.vendor == r1.vendor) = false :=
      beq_eq_false_iff_ne.mpr (fun hh => h hh.symm)
    simp [aggregate_by_vendor, aggDictStep, setKey, List.lookup, h, hbeq,
      aggStep_vendor]

/-- C5: in every plan `aggregate_by_vendor` produces from rows whose
PriceIncrease rows all lack an end date, `pi_real_end` is `none` — it is
never synthesized — even though the PriceIncrease display window of such a
row always gets the concrete end `start + z`. -/
theorem pi_real_end_never_synthesized (rows : List RetailPromoRow)
    (x y z : Int) (p : VendorPlan) (r : RetailPromoRow)
    (hrows : ∀ r' ∈ rows,
      normalize r'.entry_type = "price increase" → r'.end_date = none)
    (hp : p ∈ aggregate_by_vendor rows x y z)
    (hr : normalize r.entry_type = "price increase")
    (hre : r.end_date = none) :
    p.pi_real_end = none ∧
    compute_display_window r x y z = (r.start_date - y, r.start_date + z) := by
  constructor
  · refine aggregate_inv (fun q => q.pi_real_end = none) x y z rows ?_
      (fun v => rfl) p hp
    intro w r' hr' hw
    rw [aggStep_pi_real_end]
    split_ifs with ht
    · rw [hrows r' hr' ht]
      exact hw
    · exact hw
  · have hne : normalize r.entry_type ≠ "sale" := by rw [hr]; decide
    simp [compute_display_window, hr, hne, hre]

/-- Witness for C5: one open-ended PriceIncrease row
(`start = 100`, no end, `y = 15`, `z = 5`). -/
theorem pi_real_end_never_synthesized_witness :
    ({ vendor := "P", pi_display_start := some 85, pi_display_end := some 105,
       pi_real_start := some 100 } : VendorPlan).pi_real_end = none ∧
    compute_display_window
      { id := 2, vendor := "P", collection_id := none,
        entry_type := "Price Increase", start_date := 100, end_date := none }
      5 15 5 = (85, 105) := by
  have h := pi_real_end_never_synthesized
    [{ id := 2, vendor := "P", collection_id := none,
       entry_type := "Price Increase", start_date := 100, end_date := none }]
    5 15 5
    { vendor := "P", pi_display_start := some 85, pi_display_end := some 105,
      pi_real_start := some 100 }
    { id := 2, vendor := "P", collection_id := none,
      entry_type := "Price Increase", start_date := 100, end_date := none }
    (by decide) (by decide) (by decide) rfl
  exact ⟨h.1, h.2.trans (by decide)⟩

theorem sale_should_exist_iff (w : VendorPlan) (today : Int) :
    sale_should_exist w today = true ↔
      ∃ s e, w.sale_display_start = some s ∧ w.sale_display_end = some e ∧
        s ≤ today ∧ today ≤ e := by
  unfold sale_should_exist
  cases hs : w.sale_display_start with
  | none => simp
  | some s =>
    cases he : w.sale_display_end with
    | none => simp
    | some e => simp

theorem pi_should_exist_iff (w : VendorPlan) (today : Int) :
    pi_should_exist w today = true ↔
      ∃ s e, w.pi_display_start = some s ∧ w.pi_display_end = some e ∧
        s ≤ today ∧ today ≤ e := by
  unfold pi_should_exist
  cases hs : w.pi_display_start with
  | none => simp
  | some s =>
    cases he : w.pi_display_end with
    | none => simp
    | some e => simp

/-- C6: per category the reconciler decides SHOULD_EXIST exactly when both
display bounds are present and `displayStart ≤ today ≤ displayEnd`; a plan
aggregated from rows with no contributing rows for a category keeps `none`
bounds for it and is always SHOULD_NOT_EXIST there. -/
theorem should_exist_characterization (w : VendorPlan) (today x y z : Int)
    (rowsS rowsP : List RetailPromoRow) (pS pP : VendorPlan)
    (hS : ∀ r ∈ rowsS, normalize r.entry_type ≠ "sale")
    (hpS : pS ∈ aggregate_by_vendor rowsS x y z)
    (hP : ∀ r ∈ rowsP, normalize r.entry_type ≠ "price increase")
    (hpP : pP ∈ aggregate_by_vendor rowsP x y z) :
    (sale_should_exist w today = true ↔
      ∃ s e, w.sale_display_start = some s ∧ w.sale_display_end = some e ∧
        s ≤ today ∧ today ≤ e) ∧
    (pi_should_exist w today = true ↔
      ∃ s e, w.pi_display_start = some s ∧ w.pi_display_end = some e ∧
        s ≤ today ∧ today ≤ e) ∧
    sale_should_exist pS today = false ∧
    pi_should_exist pP today = false := by
  refine ⟨sale_should_exist_iff w today, pi_should_exist_iff w today, ?_, ?_⟩
  · refine sale_should_exist_of_none pS today ?_
    refine aggregate_inv (fun q => q.sale_display_start = none) x y z rowsS
      ?_ (fun v => rfl) pS hpS
    intro w' r hr hw'
    rw [aggStep_sale_display_start, if_neg (hS r hr)]
    exact hw'
  · refine pi_should_exist_of_none pP today ?_
    refine aggregate_inv (fun q => q.pi_display_start = none) x y z rowsP
      ?_ (fun v => rfl) pP hpP
    intro w' r hr hw'
    rw [aggStep_pi_display_start, if_neg (hP r hr)]
    exact hw'

/-- Witness for C6: a plan whose Sale window covers today, one aggregated
from a PriceIncrease-only row list (never Sale-SHOULD_EXIST), and one from
a Sale-only row list (never PriceIncrease-SHOULD_EXIST). -/
theorem should_exist_characterization_witness :
    (sale_should_exist
        { vendor := "W", sale_display_start := some 0,
          sale_display_end := some 10 } 5 = true ↔
      ∃ s e,
        ({ vendor := "W", sale_display_start := some 0,
           sale_display_end := some 10 } : VendorPlan).sale_display_start =
            some s ∧
        ({ vendor := "W", sale_display_start := some 0,
           sale_display_end := some 10 } : VendorPlan).sale_display_end =
            some e ∧
        s ≤ 5 ∧ 5 ≤ e) ∧
    (pi_should_exist
        { vendor := "W", sale_display_start := some 0,
          sale_display_end := some 10 } 5 = true ↔
      ∃ s e,
        ({ vendor := "W", sale_display_start := some 0,
           sale_display_end := some 10 } : VendorPlan).pi_display_start =
            some s ∧
        ({ vendor := "W", sale_display_start := some 0,
           sale_display_end := some 10 } : VendorPlan).pi_display_end =
            some e ∧
        s ≤ 5 ∧ 5 ≤ e) ∧
    sale_should_exist
      { vendor := "P", pi_display_start := some 85,
        pi_display_end := some 105, pi_real_start := some 100 } 5 = false ∧
    pi_should_exist
      { vendor := "V", sale_display_start := some 95,
        sale_display_end := some 110, sale_real_start := some 100,
        sale_real_end := some 110 } 5 = false :=
  should_exist_characterization
    { vendor := "W", sale_display_start := some 0,
      sale_display_end := some 10 } 5 5 15 5
    [{ id := 2, vendor := "P", collection_id := none,
       entry_type := "Price Increase", start_date := 100, end_date := none }]
    [{ id := 1, vendor := "V", collection_id := none, entry_type := "Sale",
       start_date := 100, end_date := some 110 }]
    { vendor := "P", pi_display_start := some 85, pi_display_end := some 105,
      pi_real_start := some 100 }
    { vendor := "V", sale_display_start := some 95,
      sale_display_end := some 110, sale_real_start := some 100,
      sale_real_end := some 110 }
    (by decide) (by decide) (by decide) (by decide)

/-- C10: a row whose normalized entry type is neither `"sale"` nor
`"price increase"` only appends its non-empty, unseen collection id and
leaves all eight window fields unchanged; the window calculator gives it
the degenerate window `(start, start)`; and a plan aggregated from such
rows alone never makes either category SHOULD_EXIST. -/
theorem other_entry_type_rows_inert (r : RetailPromoRow) (x y z : Int)
    (w : VendorPlan) (rows : List RetailPromoRow) (today : Int)
    (p : VendorPlan)
    (h1 : normalize r.entry_type ≠ "sale")
    (h2 : normalize r.entry_type ≠ "price increase")
    (hrows : ∀ r' ∈ rows, normalize r'.entry_type ≠ "sale" ∧
      normalize r'.entry_type ≠ "price increase")
    (hp : p ∈ aggregate_by_vendor rows x y z) :
    aggStep x y z w r =
      { w with collection_ids :=
          match r.collection_id with
          | some cid =>
            if cid ≠ "" ∧ cid ∉ w.collection_ids then
              w.collection_ids ++ [cid]
            else w.collection_ids
          | none => w.collection_ids } ∧
    compute_display_window r x y z = (r.start_date, r.start_date) ∧
    sale_should_exist p today = false ∧
    pi_should_exist p today = false := by
  refine ⟨?_, ?_, ?_, ?_⟩
  · simp [aggStep, h1, h2]
  · simp [compute_display_window, h1, h2]
  · refine sale_should_exist_of_none p today ?_
    refine aggregate_inv (fun q => q.sale_display_start = none) x y z rows
      ?_ (fun v => rfl) p hp
    intro w' r' hr' hw'
    rw [aggStep_sale_display_start, if_neg (hrows r' hr').1]
    exact hw'
  · refine pi_should_exist_of_none p today ?_
    refine aggregate_inv (fun q => q.pi_display_start = none) x y z rows
      ?_ (fun v => rfl) p hp
    intro w' r' hr' hw'
    rw [aggStep_pi_display_start, if_neg (hrows r' hr').2]
    exact hw'

/-- Witness for C10: a `"Clearance"` row with a fresh collection id. -/
theorem other_entry_type_rows_inert_witness :
    aggStep 5 15 5 { vendor := "V" }
      { id := 3, vendor := "V", collection_id := some "77",
        entry_type := "Clearance", start_date := 100, end_date := none } =
      { vendor := "V", collection_ids := ["77"] } ∧
    compute_display_window
      { id := 3, vendor := "V", collection_id := some "77",
        entry_type := "Clearance", start_date := 100, end_date := none }
      5 15 5 = (100, 100) ∧
    sale_should_exist { vendor := "V", collection_ids := ["77"] } 100 =
      false ∧
    pi_should_exist { vendor := "V", collection_ids := ["77"] } 100 =
      false := by
  have h := other_entry_type_rows_inert
    { id := 3, vendor := "V", collection_id := some "77",
      entry_type := "Clearance", start_date := 100, end_date := none }
    5 15 5 { vendor := "V" }
    [{ id := 3, vendor := "V", collection_id := some "77",
       entry_type := "Clearance", start_date := 100, end_date := none }]
    100 { vendor := "V", collection_ids := ["77"] }
    (by decide) (by decide) (by decide) (by decide)
  exact ⟨h.1.trans (by decide), h.2.1.trans (by decide), h.2.2.1, h.2.2.2⟩

theorem mem_dedupAppend (pid : String) :
    ∀ (l acc : List String), pid ∈ dedupAppend acc l ↔ pid ∈ acc ∨ pid ∈ l := by
  intro l
  induction l with
  | nil => intro acc; simp [dedupAppend]
  | cons a t ih =>
    intro acc
    have h := ih (if a ∈ acc then acc else acc ++ [a])
    unfold dedupAppend at h ⊢
    rw [List.foldl_cons, h]
    by_cases ha : a ∈ acc
    · rw [if_pos ha]
      constructor
      · rintro (hx | hx)
        · exact Or.inl hx
        · exact Or.inr (List.mem_cons_of_mem _ hx)
      · rintro (hx | hx)
        · exact Or.inl hx
        · rcases List.mem_cons.mp hx with rfl | hx
          · exact Or.inl ha
          · exact Or.inr hx
    · rw [if_neg ha, List.mem_append, List.mem_singleton, List.mem_cons]
      tauto

theorem mem_scope_foldl (collections : String → List String) (pid : String) :
    ∀ (cids acc : List String),
      pid ∈ cids.foldl (fun acc cid => dedupAppend acc (collections cid)) acc ↔
        pid ∈ acc ∨ ∃ cid ∈ cids, pid ∈ collections cid := by
  intro cids
  induction cids with
  | nil => intro acc; simp
  | cons c t ih =>
    intro acc
    rw [List.foldl_cons, ih, mem_dedupAppend]
    constructor
    · rintro ((hx | hx) | ⟨cid, hcid, hx⟩)
      · exact Or.inl hx
      · exact Or.inr ⟨c, List.mem_cons_self _ _, hx⟩
      · exact Or.inr ⟨cid, List.mem_cons_of_mem _ hcid, hx⟩
    · rintro (hx | ⟨cid, hcid, hx⟩)
      · exact Or.inl (Or.inl hx)
      · rcases List.mem_cons.mp hcid with rfl | hcid
        · exact Or.inl (Or.inr hx)
        · exact Or.inr ⟨cid, hcid, hx⟩

/-- C9: product-scope resolution follows a strict priority: with one or
more collection identifiers the scope is the (deduplicated) union of the
products in those collections; only with none is it the products whose
vendor field, after `normalize`, exactly equals the normalized vendor
name. -/
theorem scope_resolution_priority (collections : String → List String)
    (fetched : List ShopProduct) (w : VendorPlan) (pid : String) :
    (w.collection_ids ≠ [] →
      (pid ∈ resolve_product_ids collections fetched w ↔
        ∃ cid ∈ w.collection_ids, pid ∈ collections cid)) ∧
    (w.collection_ids = [] →
      (pid ∈ resolve_product_ids collections fetched w ↔
        ∃ n ∈ fetched, n.pid = pid ∧
          normalize n.pvendor = normalize w.vendor)) := by
  constructor
  · intro hne
    unfold resolve_product_ids
    rw [if_neg hne, mem_scope_foldl]
    simp
  · intro he
    unfold resolve_product_ids
    rw [if_pos he]
    unfold list_product_ids_by_vendor
    rw [List.mem_map]
    constructor
    · rintro ⟨n, hn, rfl⟩
      rw [List.mem_filter] at hn
      exact ⟨n, hn.1, rfl, by simpa using hn.2⟩
    · rintro ⟨n, hn, rfl, hv⟩
      exact ⟨n, List.mem_filter.mpr ⟨hn, by simpa using hv⟩, rfl⟩

/-- Witness for C9: a plan with a collection id uses the collection union;
a plan without one falls back to the normalized vendor match. -/
theorem scope_resolution_priority_witness :
    ("p1" ∈ resolve_product_ids
        (fun cid => if cid = "7" then ["p1", "p2"] else [])
        [{ pid := "p3", pvendor := "Acme" },
         { pid := "p4", pvendor := "Other" }]
        { vendor := "acme", collection_ids := ["7"] } ↔
      ∃ cid ∈ ["7"],
        "p1" ∈ (fun cid => if cid = "7" then ["p1", "p2"] else []) cid) ∧
    ("p3" ∈ resolve_product_ids
        (fun cid => if cid = "7" then ["p1", "p2"] else [])
        [{ pid := "p3", pvendor := "Acme" },
         { pid := "p4", pvendor := "Other" }]
        { vendor := "acme" } ↔
      ∃ n ∈ [({ pid := "p3", pvendor := "Acme" } : ShopProduct),
             { pid := "p4", pvendor := "Other" }],
        n.pid = "p3" ∧ normalize n.pvendor = normalize "acme") :=
  ⟨(scope_resolution_priority
      (fun cid => if cid = "7" then ["p1", "p2"] else [])
      [{ pid := "p3", pvendor := "Acme" },
       { pid := "p4", pvendor := "Other" }]
      { vendor := "acme", collection_ids := ["7"] } "p1").1 (by decide),
   (scope_resolution_priority
      (fun cid => if cid = "7" then ["p1", "p2"] else [])
      [{ pid := "p3", pvendor := "Acme" },
       { pid := "p4", pvendor := "Other" }]
      { vendor := "acme" } "p3").2 rfl⟩

/-! ## Dry-run loop lemmas -/

theorem dry_run_loop_results (cc vc : String → Int) (today : Int) :
    ∀ (plans : List VendorPlan) (cache : List (String × Int)),
      ∀ q ∈ (dry_run_loop cc vc today cache plans).1.zip plans,
        q.1.will_write =
          (if payload_will_exist q.2 today then q.1.products_found else 0) ∧
        q.1.will_delete =
          (if keys_will_delete q.2 today then q.1.products_found else 0) := by
  intro plans
  induction plans with
  | nil => intro cache q hq; simp [dry_run_loop] at hq
  | cons w rest ih =>
    intro cache q hq
    cases hl : List.lookup (cache_key w) cache with
    | some c =>
      simp only [dry_run_loop, hl, List.zip_cons_cons] at hq
      rcases List.mem_cons.mp hq with rfl | hq
      · exact ⟨rfl, rfl⟩
      · exact ih cache q hq
    | none =>
      simp only [dry_run_loop, hl, List.zip_cons_cons] at hq
      rcases List.mem_cons.mp hq with rfl | hq
      · exact ⟨rfl, rfl⟩
      · exact ih _ q hq

theorem dry_run_loop_log (cc vc : String → Int) (today : Int) :
    ∀ (plans : List VendorPlan) (cache : List (String × Int)),
      (dry_run_loop cc vc today cache plans).2.Nodup ∧
      ∀ k ∈ (dry_run_loop cc vc today cache plans).2,
        List.lookup k cache = none := by
  intro plans
  induction plans with
  | nil =>
    intro cache
    exact ⟨by simp [dry_run_loop], fun k hk => by simp [dry_run_loop] at hk⟩
  | cons w rest ih =>
    intro cache
    cases hl : List.lookup (cache_key w) cache with
    | some c =>
      have h2 := ih cache
      constructor
      · simp only [dry_run_loop, hl]
        exact h2.1
      · intro k hk
        simp only [dry_run_loop, hl] at hk
        exact h2.2 k hk
    | none =>
      have h2 := ih ((cache_key w, dry_fetch_count cc vc w) :: cache)
      have hfresh : ∀ k ∈ (dry_run_loop cc vc today
          ((cache_key w, dry_fetch_count cc vc w) :: cache) rest).2,
          k ≠ cache_key w ∧ List.lookup k cache = none := by
        intro k hk
        have hlk := h2.2 k hk
        rw [List.lookup] at hlk
        cases hbeq : k == cache_key w with
        | true => rw [hbeq] at hlk; cases hlk
        | false => rw [hbeq] at hlk; exact ⟨ne_of_beq_false hbeq, hlk⟩
      constructor
      · simp only [dry_run_loop, hl]
        refine List.nodup_cons.mpr ⟨?_, h2.1⟩
        intro hmem
        exact (hfresh _ hmem).1 rfl
      · intro k hk
        simp only [dry_run_loop, hl] at hk
        rcases List.mem_cons.mp hk with rfl | hk
        · exact hl
        · exact (hfresh k hk).2

theorem dry_run_loop_counts (cc vc : String → Int) (today : Int) :
    ∀ (plans : List VendorPlan) (cache : List (String × Int)),
      (plans.map cache_key).Nodup →
      (∀ w' ∈ plans, List.lookup (cache_key w') cache = none) →
      ∀ q ∈ (dry_run_loop cc vc today cache plans).1.zip plans,
        q.1.products_found = dry_fetch_count cc vc q.2 := by
  intro plans
  induction plans with
  | nil => intro cache _ _ q hq; simp [dry_run_loop] at hq
  | cons w rest ih =>
    intro cache hnd hfresh q hq
    have hl : List.lookup (cache_key w) cache = none :=
      hfresh w (List.mem_cons_self _ _)
    simp only [dry_run_loop, hl, List.zip_cons_cons] at hq
    rcases List.mem_cons.mp hq with rfl | hq
    · rfl
    · simp only [List.map_cons] at hnd
      obtain ⟨hnotin, hnd'⟩ := List.nodup_cons.mp hnd
      refine ih ((cache_key w, dry_fetch_count cc vc w) :: cache) hnd' ?_ q hq
      intro w' hw'
      rw [List.lookup]
      cases hbeq : cache_key w' == cache_key w with
      | true =>
        have hmem : cache_key w ∈ rest.map cache_key := by
          rw [← eq_of_beq hbeq]
          exact List.mem_map_of_mem _ hw'
        exact absurd hmem hnotin
      | false =>
        exact hfresh w' (List.mem_cons_of_mem _ hw')

/-- C8: in dry-run mode `willWrite` is the scope's product count exactly
when some category's payload would be non-empty, `willDelete` is that count
exactly when some category is SHOULD_NOT_EXIST, the count comes from the
approximate count primitives (per-collection sum, or per-vendor), and it is
fetched at most once per vendor+scope cache key per run (the fetch log has
no duplicates). -/
theorem dry_run_estimates (cc vc : String → Int) (today : Int)
    (plans : List VendorPlan)
    (hkeys : (plans.map cache_key).Nodup) :
    (∀ q ∈ (dry_run cc vc today plans).1.zip plans,
       q.1.will_write =
         (if payload_will_exist q.2 today then q.1.products_found else 0) ∧
       q.1.will_delete =
         (if keys_will_delete q.2 today then q.1.products_found else 0) ∧
       q.1.products_found = dry_fetch_count cc vc q.2) ∧
    (dry_run cc vc today plans).2.Nodup := by
  constructor
  · intro q hq
    exact ⟨(dry_run_loop_results cc vc today plans [] q hq).1,
      (dry_run_loop_results cc vc today plans [] q hq).2,
      dry_run_loop_counts cc vc today plans [] hkeys (fun w' _ => rfl) q hq⟩
  · exact (dry_run_loop_log cc vc today plans []).1

/-- Witness for C8: two vendors, one with an active fully-dated Sale
(writes, and deletes for the absent PriceIncrease), one collection-scoped
with no windows (deletes only). -/
theorem dry_run_estimates_witness :
    (∀ q ∈ (dry_run (fun _ => 3) (fun _ => 2) 5
        [{ vendor := "V", sale_display_start := some 0,
           sale_display_end := some 10, sale_real_start := some 1,
           sale_real_end := some 9 },
         { vendor := "P", collection_ids := ["7"] }]).1.zip
        [{ vendor := "V", sale_display_start := some 0,
           sale_display_end := some 10, sale_real_start := some 1,
           sale_real_end := some 9 },
         { vendor := "P", collection_ids := ["7"] }],
       q.1.will_write =
         (if payload_will_exist q.2 5 then q.1.products_found else 0) ∧
       q.1.will_delete =
         (if keys_will_delete q.2 5 then q.1.products_found else 0) ∧
       q.1.products_found = dry_fetch_count (fun _ => 3) (fun _ => 2) q.2) ∧
    (dry_run (fun _ => 3) (fun _ => 2) 5
        [{ vendor := "V", sale_display_start := some 0,
           sale_display_end := some 10, sale_real_start := some 1,
           sale_real_end := some 9 },
         { vendor := "P", collection_ids := ["7"] }]).2.Nodup :=
  dry_run_estimates (fun _ => 3) (fun _ => 2) 5
    [{ vendor := "V", sale_display_start := some 0,
       sale_display_end := some 10, sale_real_start := some 1,
       sale_real_end := some 9 },
     { vendor := "P", collection_ids := ["7"] }]
    (by decide)

/-! ## Order independence of aggregation (one vendor) -/

/-- Agreement of two `VendorPlan`s on everything order independence can
promise: same vendor, same window bounds, and the same collection-id
set (the list order may differ). -/
structure PlanAgree (w w' : VendorPlan) : Prop where
  vendor_eq : w.vendor = w'.vendor
  ids_iff : ∀ c, c ∈ w.collection_ids ↔ c ∈ w'.collection_ids
  sds : w.sale_display_start = w'.sale_display_start
  sde : w.sale_display_end = w'.sale_display_end
  pds : w.pi_display_start = w'.pi_display_start
  pde : w.pi_display_end = w'.pi_display_end
  srs : w.sale_real_start = w'.sale_real_start
  sre : w.sale_real_end = w'.sale_real_end
  prs : w.pi_real_start = w'.pi_real_start
  pre : w.pi_real_end = w'.pi_real_end

theorem planAgree_refl (w : VendorPlan) : PlanAgree w w :=
  ⟨rfl, fun _ => Iff.rfl, rfl, rfl, rfl, rfl, rfl, rfl, rfl, rfl⟩

theorem planAgree_trans {a b c : VendorPlan} (h1 : PlanAgree a b)
    (h2 : PlanAgree b c) : PlanAgree a c :=
  ⟨h1.vendor_eq.trans h2.vendor_eq,
   fun x => (h1.ids_iff x).trans (h2.ids_iff x),
   h1.sds.trans h2.sds, h1.sde.trans h2.sde, h1.pds.trans h2.pds,
   h1.pde.trans h2.pde, h1.srs.trans h2.srs, h1.sre.trans h2.sre,
   h1.prs.trans h2.prs, h1.pre.trans h2.pre⟩

theorem aggStep_congr (x y z : Int) {w w' : VendorPlan}
    (r : RetailPromoRow) (h : PlanAgree w w') :
    PlanAgree (aggStep x y z w r) (aggStep x y z w' r) := by
  refine ⟨?_, ?_, ?_, ?_, ?_, ?_, ?_, ?_, ?_, ?_⟩
  · rw [aggStep_vendor, aggStep_vendor, h.vendor_eq]
  · intro c
    rw [mem_aggStep_collection_ids, mem_aggStep_collection_ids]
    exact or_congr (h.ids_iff c) Iff.rfl
  · rw [aggStep_sale_display_start, aggStep_sale_display_start, h.sds]
  · rw [aggStep_sale_display_end, aggStep_sale_display_end, h.sde]
  · rw [aggStep_pi_display_start, aggStep_pi_display_start, h.pds]
  · rw [aggStep_pi_display_end, aggStep_pi_display_end, h.pde]
  · rw [aggStep_sale_real_start, aggStep_sale_real_start, h.srs]
  · rw [aggStep_sale_real_end, aggStep_sale_real_end, h.sre]
  · rw [aggStep_pi_real_start, aggStep_pi_real_start, h.prs]
  · rw [aggStep_pi_real_end, aggStep_pi_real_end, h.pre]

theorem aggStep_swap (x y z : Int) (w : VendorPlan)
    (a b : RetailPromoRow) :
    PlanAgree (aggStep x y z (aggStep x y z w a) b)
      (aggStep x y z (aggStep x y z w b) a) := by
  refine ⟨?_, ?_, ?_, ?_, ?_, ?_, ?_, ?_, ?_, ?_⟩
  · rw [aggStep_vendor, aggStep_vendor, aggStep_vendor, aggStep_vendor]
  · intro c
    rw [mem_aggStep_collection_ids, mem_aggStep_collection_ids,
      mem_aggStep_collection_ids, mem_aggStep_collection_ids]
    tauto
  · rw [aggStep_sale_display_start, aggStep_sale_display_start,
      aggStep_sale_display_start, aggStep_sale_display_start]
    by_cases ha : normalize a.entry_type = "sale" <;>
      by_cases hb : normalize b.entry_type = "sale" <;>
        simp [ha, hb, omin_right_comm]
  · rw [aggStep_sale_display_end, aggStep_sale_display_end,
      aggStep_sale_display_end, aggStep_sale_display_end]
    by_cases ha : normalize a.entry_type = "sale" <;>
      by_cases hb : normalize b.entry_type = "sale" <;>
        simp [ha, hb, omax_right_comm]
  · rw [aggStep_pi_display_start, aggStep_pi_display_start,
      aggStep_pi_display_start, aggStep_pi_display_start]
    by_cases ha : normalize a.entry_type = "price increase" <;>
      by_cases hb : normalize b.entry_type = "price increase" <;>
        simp [ha, hb, omin_right_comm]
  · rw [aggStep_pi_display_end, aggStep_pi_display_end,
      aggStep_pi_display_end, aggStep_pi_display_end]
    by_cases ha : normalize a.entry_type = "price increase" <;>
      by_cases hb : normalize b.entry_type = "price increase" <;>
        simp [ha, hb, omax_right_comm]
  · rw [aggStep_sale_real_start, aggStep_sale_real_start,
      aggStep_sale_real_start, aggStep_sale_real_start]
    by_cases ha : normalize a.entry_type = "sale" <;>
      by_cases hb : normalize b.entry_type = "sale" <;>
        simp [ha, hb, omin_right_comm]
  · rw [aggStep_sale_real_end, aggStep_sale_real_end,
      aggStep_sale_real_end, aggStep_sale_real_end]
    by_cases ha : normalize a.entry_type = "sale" <;>
      by_cases hb : normalize b.entry_type = "sale" <;>
        simp [ha, hb, omax_right_comm]
  · rw [aggStep_pi_real_start, aggStep_pi_real_start,
      aggStep_pi_real_start, aggStep_pi_real_start]
    by_cases ha : normalize a.entry_type = "price increase" <;>
      by_cases hb : normalize b.entry_type = "price increase" <;>
        simp [ha, hb, omin_right_comm]
  · rw [aggStep_pi_real_end, aggStep_pi_real_end,
      aggStep_pi_real_end, aggStep_pi_real_end]
    by_cases ha : normalize a.entry_type = "price increase" <;>
      by_cases hb : normalize b.entry_type = "price increase" <;>
        cases hae : a.end_date <;> cases hbe : b.end_date <;>
          simp [ha, hb, hae, hbe, omax_right_comm]

theorem foldl_aggStep_congr (x y z : Int) :
    ∀ (l : List RetailPromoRow) {w w' : VendorPlan}, PlanAgree w w' →
      PlanAgree (l.foldl (aggStep x y z) w) (l.foldl (aggStep x y z) w') := by
  intro l
  induction l with
  | nil => intro w w' h; exact h
  | cons r t ih => intro w w' h; exact ih (aggStep_congr x y z r h)

theorem foldl_aggStep_perm (x y z : Int) {l1 l2 : List RetailPromoRow}
    (hp : l1.Perm l2) :
    ∀ {w w' : VendorPlan}, PlanAgree w w' →
      PlanAgree (l1.foldl (aggStep x y z) w) (l2.foldl (aggStep x y z) w') := by
  induction hp with
  | nil => intro w w' h; exact h
  | cons r p ih => intro w w' h; exact ih (aggStep_congr x y z r h)
  | swap a b l =>
    intro w w' h
    rw [List.foldl_cons, List.foldl_cons, List.foldl_cons, List.foldl_cons]
    refine foldl_aggStep_congr x y z l ?_
    exact planAgree_trans
      (aggStep_congr x y z _ (aggStep_congr x y z _ h))
      (aggStep_swap x y z w' _ _)
  | trans p1 p2 ih1 ih2 =>
    intro w w' h
    exact planAgree_trans (ih1 (planAgree_refl w)) (ih2 h)

theorem aggDict_single (x y z : Int) (v : String) :
    ∀ (rows : List RetailPromoRow) (w : VendorPlan),
      (∀ r ∈ rows, r.vendor = v) →
      rows.foldl (aggDictStep x y z) [(v, w)] =
        [(v, rows.foldl (aggStep x y z) w)] := by
  intro rows
  induction rows with
  | nil => intro w _; rfl
  | cons r t ih =>
    intro w hv
    have hrv : r.vendor = v := hv r (List.mem_cons_self _ _)
    rw [List.foldl_cons, List.foldl_cons]
    have hstep : aggDictStep x y z [(v, w)] r = [(v, aggStep x y z w r)] := by
      unfold aggDictStep
      rw [hrv]
      simp [List.lookup, setKey]
    rw [hstep]
    exact ih (aggStep x y z w r) (fun r' hr' => hv r' (List.mem_cons_of_mem _ hr'))

/-- C3: vendor aggregation is order-independent for the rows of one
vendor: for any permutation of the row list, `aggregate_by_vendor`
produces plans that agree on the vendor, all eight display/real window
bounds, and the collection-id set (`PlanAgree`), because the per-category
bounds merge by min over starts and max over present ends. -/
theorem aggregate_order_independent (x y z : Int) (v : String)
    (l1 l2 : List RetailPromoRow) (hp : l1.Perm l2)
    (hv : ∀ r ∈ l1, r.vendor = v) :
    List.Forall₂ PlanAgree (aggregate_by_vendor l1 x y z)
      (aggregate_by_vendor l2 x y z) := by
  cases l1 with
  | nil =>
    rw [hp.symm.eq_nil]
    exact List.Forall₂.nil
  | cons r1 t1 =>
    cases l2 with
    | nil => exact absurd hp.eq_nil (by simp)
    | cons r2 t2 =>
      have hv2 : ∀ r ∈ r2 :: t2, r.vendor = v := fun r hr =>
        hv r (hp.mem_iff.mpr hr)
      have e1 : aggregate_by_vendor (r1 :: t1) x y z =
          [t1.foldl (aggStep x y z) (aggStep x y z { vendor := v } r1)] := by
        unfold aggregate_by_vendor
        rw [List.foldl_cons]
        have h0 : aggDictStep x y z [] r1 =
            [(v, aggStep x y z { vendor := v } r1)] := by
          unfold aggDictStep
          rw [hv r1 (List.mem_cons_self _ _)]
          simp [List.lookup, setKey]
        rw [h0, aggDict_single x y z v t1 _
          (fun r' hr' => hv r' (List.mem_cons_of_mem _ hr'))]
        rfl
      have e2 : aggregate_by_vendor (r2 :: t2) x y z =
          [t2.foldl (aggStep x y z) (aggStep x y z { vendor := v } r2)] := by
        unfold aggregate_by_vendor
        rw [List.foldl_cons]
        have h0 : aggDictStep x y z [] r2 =
            [(v, aggStep x y z { vendor := v } r2)] := by
          unfold aggDictStep
          rw [hv2 r2 (List.mem_cons_self _ _)]
          simp [List.lookup, setKey]
        rw [h0, aggDict_single x y z v t2 _
          (fun r' hr' => hv2 r' (List.mem_cons_of_mem _ hr'))]
        rfl
      rw [e1, e2]
      exact List.Forall₂.cons
        (foldl_aggStep_perm x y z hp (planAgree_refl { vendor := v }))
        List.Forall₂.nil

/-- Witness for C3: a two-row list (one Sale, one open-ended
PriceIncrease, same vendor) and its reversal aggregate to agreeing
plans. -/
theorem aggregate_order_independent_witness :
    List.Forall₂ PlanAgree
      (aggregate_by_vendor
        [{ id := 1, vendor := "V", collection_id := some "7",
           entry_type := "Sale", start_date := 100, end_date := some 110 },
         { id := 2, vendor := "V", collection_id := none,
           entry_type := "Price Increase", start_date := 200,
           end_date := none }] 5 15 5)
      (aggregate_by_vendor
        [{ id := 2, vendor := "V", collection_id := none,
           entry_type := "Price Increase", start_date := 200,
           end_date := none },
         { id := 1, vendor := "V", collection_id := some "7",
           entry_type := "Sale", start_date := 100, end_date := some 110 }]
        5 15 5) :=
  aggregate_order_independent 5 15 5 "V"
    [{ id := 1, vendor := "V", collection_id := some "7",
       entry_type := "Sale", start_date := 100, end_date := some 110 },
     { id := 2, vendor := "V", collection_id := none,
       entry_type := "Price Increase", start_date := 200,
       end_date := none }]
    [{ id := 2, vendor := "V", collection_id := none,
       entry_type := "Price Increase", start_date := 200,
       end_date := none },
     { id := 1, vendor := "V", collection_id := some "7",
       entry_type := "Sale", start_date := 100, end_date := some 110 }]
    (by decide) (by decide)

end ShopifyAddBanner
